import Mathlib

/-!
Shallow embedding of the receiver registry and dispatch engine of
src/django_signal_source.py (a standalone copy of the Django Signal class).

Python objects are modelled by explicit identity addresses (CPython id()):
a plain object or callable carries its own address; a bound method carries
the address of the transient method object itself together with the
addresses of its target object and of its underlying function.  CPython
guarantees that distinct live objects have distinct addresses; address 0
is reserved for the None singleton.

Object lifetime is modelled by an explicit map alive : Nat -> Bool that is
consulted whenever a weak reference is dereferenced.  threading.Lock only
serialises the structural operations, so each operation is modelled as a
pure state transformer on the Signal state; the weakref.finalize callback
registered by connect (Signal._remove_receiver, which merely sets the
dead-receivers flag) is modelled by the remove_receiver transition.
-/

/-- Address of the None singleton, as returned by id(None); every real
object carries a different address. -/
def NONE_ADDR : Nat := 0

/-- A Python value as seen by the dispatcher: the None sentinel, a plain
object or callable carrying its own id, or a bound method carrying the id
of the transient method object, the id of its target object and the
id of its underlying function attribute. -/
inductive PyVal where
  | none : PyVal
  | obj : Nat → PyVal
  | method : Nat → Nat → Nat → PyVal
  deriving DecidableEq

/-- The result of the source function named make-underscore-id: either a
single id or, for a bound method, the pair of the ids of the target
object and of the underlying function. -/
inductive PyId where
  | single : Nat → PyId
  | pair : Nat → Nat → PyId
  deriving DecidableEq

/-- id() of a value: its own address (for a bound method, the address of
the transient method object itself). -/
def addrOf : PyVal → Nat
  | PyVal.none => NONE_ADDR
  | PyVal.obj a => a
  | PyVal.method own _ _ => own

/-- Source lines 7-17: if the target has a func attribute (a bound
method), return the pair of the id of its target object and the id of its
function; otherwise return the id of the target itself. -/
def make_id : PyVal → PyId
  | PyVal.method _ slf fnc => PyId.pair slf fnc
  | v => PyId.single (addrOf v)

/-- Source line 21: the identity key of the None sentinel. -/
def NONE_ID : PyId := make_id PyVal.none

/-- First component of a lookup key: either a caller-supplied dispatch
uid (an opaque hashable token, modelled by a Nat tag, that never compares
equal to an id value) or the identity of the receiver. -/
inductive KeyHead where
  | uid : Nat → KeyHead
  | rid : PyId → KeyHead
  deriving DecidableEq

/-- A lookup key as built by connect and disconnect. -/
abbrev LookupKey := KeyHead × PyId

/-- A registered hold of a receiver: a strong reference keeps the value
alive; a weak reference (weakref.ref, or weakref.WeakMethod for a bound
method) tracks the lifetime of its owner and resolves to the receiver
only while the owner is alive. -/
inductive RefHandle where
  | strong : PyVal → RefHandle
  | weak : PyVal → RefHandle
  deriving DecidableEq

/-- The object whose lifetime a weak hold of this receiver tracks: for a
bound method, its target object (WeakMethod; also the object that
connect registers the finalize callback on); otherwise the receiver
itself. -/
def ownerAddr : PyVal → Nat
  | PyVal.method _ slf _ => slf
  | v => addrOf v

/-- Whether an entry survives the dead-receiver prune (source lines
269-273): a strong hold always does, a weak hold only while its owner is
alive (that is, while calling the weak reference does not give None). -/
def handleKeep (alive : Nat → Bool) : RefHandle → Bool
  | RefHandle.strong _ => true
  | RefHandle.weak r => alive (ownerAddr r)

/-- Dereference a handle at dispatch time (source lines 313-323): a
strong hold gives the receiver; a weak hold gives it only while the
owner is alive, and None afterwards. -/
def RefHandle.deref (alive : Nat → Bool) : RefHandle → Option PyVal
  | RefHandle.strong r => some r
  | RefHandle.weak r => if alive (ownerAddr r) = true then some r else Option.none

/-- A value stored in the sender cache: the NO_RECEIVERS marker object
(source line 25) or the list of candidate handles collected for a
sender. -/
inductive CacheVal where
  | noReceivers : CacheVal
  | list : List RefHandle → CacheVal
  deriving DecidableEq

/-- The state of a Signal (source lines 38-65): the ordered registry of
(lookup key, handle) entries, the caching flag fixed at construction,
the sender cache, and the dead-receivers flag set by the finalize
callback.  providing_args is documentation-only bookkeeping and the lock
only serialises operations, so neither is part of the state. -/
structure Signal where
  receivers : List (LookupKey × RefHandle)
  use_caching : Bool
  sender_receivers_cache : List (PyVal × CacheVal)
  dead_receivers : Bool
  deriving DecidableEq

/-- Dictionary get on the sender cache (keys compare by identity). -/
def cacheGet (c : List (PyVal × CacheVal)) (s : PyVal) : Option CacheVal :=
  match c with
  | [] => Option.none
  | (k, v) :: t => if k = s then some v else cacheGet t s

/-- Dictionary store on the sender cache. -/
def cacheInsert (s : PyVal) (v : CacheVal) : List (PyVal × CacheVal) → List (PyVal × CacheVal)
  | [] => [(s, v)]
  | (k, w) :: t => if k = s then (s, v) :: t else (k, w) :: cacheInsert s v t

/-- Source lines 300-303: collect, in registration order, the handles of
the entries whose bound sender key equals NONE_ID or equals the key of
the current sender. -/
def scanReceivers (senderkey : PyId) : List (LookupKey × RefHandle) → List RefHandle
  | [] => []
  | e :: t =>
    if e.1.2 = NONE_ID ∨ e.1.2 = senderkey then e.2 :: scanReceivers senderkey t
    else scanReceivers senderkey t

/-- Source lines 313-323: dereference each candidate handle, silently
dropping weak holds whose owner has been destroyed. -/
def resolveLive (alive : Nat → Bool) : List RefHandle → List PyVal
  | [] => []
  | h :: t =>
    match RefHandle.deref alive h with
    | some r => r :: resolveLive alive t
    | Option.none => resolveLive alive t

/-- Source line 141: whether some entry already carries this lookup key. -/
def hasKey (k : LookupKey) (l : List (LookupKey × RefHandle)) : Bool :=
  l.any (fun e => decide (e.1 = k))

/-- Number of entries carrying a given lookup key. -/
def countKey (k : LookupKey) (l : List (LookupKey × RefHandle)) : Nat :=
  l.countP (fun e => decide (e.1 = k))

/-- Source lines 179-184: delete the first entry whose key matches, then
stop scanning. -/
def removeFirstKey (k : LookupKey) : List (LookupKey × RefHandle) → List (LookupKey × RefHandle)
  | [] => []
  | e :: es => if e.1 = k then es else e :: removeFirstKey k es

/-- Source lines 115-119 and 167-170: the lookup key is (dispatch_uid,
sender id) when a dispatch uid is given and (receiver id, sender id)
otherwise. -/
def lookupKey (receiver : PyVal) (sender : PyVal) (dispatch_uid : Option Nat) : LookupKey :=
  match dispatch_uid with
  | some u => (KeyHead.uid u, make_id sender)
  | Option.none => (KeyHead.rid (make_id receiver), make_id sender)

/-- Source lines 122-134: wrap the receiver weakly (weakref.ref, or
WeakMethod tracking the target object for a bound method) or strongly. -/
def mkHandle (weak : Bool) (receiver : PyVal) : RefHandle :=
  if weak then RefHandle.weak receiver else RefHandle.strong receiver

/-- A freshly constructed Signal (source lines 38-65). -/
def Signal.init (use_caching : Bool) : Signal :=
  { receivers := [], use_caching := use_caching,
    sender_receivers_cache := [], dead_receivers := false }

/-- Source lines 263-273 (clearing dead receivers): when the
dead-receivers flag is set, reset it and keep only the entries that are
strong holds or weak holds whose target is still alive. -/
def clear_dead_receivers (alive : Nat → Bool) (st : Signal) : Signal :=
  if st.dead_receivers then
    { st with dead_receivers := false,
              receivers := st.receivers.filter (fun e => handleKeep alive e.2) }
  else st

/-- Source lines 67-144 (connect): build the lookup key and the handle,
then under the lock prune dead entries, append the entry only when no
existing entry carries an equal key, and clear the sender cache.  The
finalize callback registration is modelled by the remove_receiver
transition. -/
def Signal.connect (receiver : PyVal) (sender : PyVal) (weak : Bool)
    (dispatch_uid : Option Nat) (alive : Nat → Bool) (st : Signal) : Signal :=
  let k := lookupKey receiver sender dispatch_uid
  let h := mkHandle weak receiver
  let st1 := clear_dead_receivers alive st
  { st1 with
    receivers := if hasKey k st1.receivers then st1.receivers
                 else st1.receivers ++ [(k, h)],
    sender_receivers_cache := [] }

/-- Source lines 147-188 (disconnect): build the lookup key, prune dead
entries, delete the first matching entry if any, clear the sender cache,
and report whether an entry was removed. -/
def Signal.disconnect (receiver : PyVal) (sender : PyVal)
    (dispatch_uid : Option Nat) (alive : Nat → Bool) (st : Signal) : Bool × Signal :=
  let k := lookupKey receiver sender dispatch_uid
  let st1 := clear_dead_receivers alive st
  (hasKey k st1.receivers,
   { st1 with receivers := removeFirstKey k st1.receivers,
              sender_receivers_cache := [] })

/-- Slow path of live-receiver resolution (source lines 293-310 followed
by 313-325): prune dead entries, scan the registry for this sender,
store the candidate list (or the NO_RECEIVERS marker when it is empty)
into the cache when caching is enabled, then dereference the candidates. -/
def liveSlow (alive : Nat → Bool) (sender : PyVal) (st : Signal) : List PyVal × Signal :=
  let st1 := clear_dead_receivers alive st
  let candidates := scanReceivers (make_id sender) st1.receivers
  let cache2 :=
    if st1.use_caching then
      cacheInsert sender
        (if candidates.isEmpty then CacheVal.noReceivers else CacheVal.list candidates)
        st1.sender_receivers_cache
    else st1.sender_receivers_cache
  (resolveLive alive candidates, { st1 with sender_receivers_cache := cache2 })

/-- Source lines 276-325 (live-receiver resolution): when caching is
enabled and no receiver has died, consult the cache first — the
NO_RECEIVERS marker gives the empty list and a cached candidate list is
dereferenced directly; on a cache miss, with caching disabled, or with
the dead flag set, take the slow path. -/
def Signal.live_receivers (alive : Nat → Bool) (sender : PyVal) (st : Signal) :
    List PyVal × Signal :=
  if st.use_caching = true ∧ st.dead_receivers = false then
    match cacheGet st.sender_receivers_cache sender with
    | some CacheVal.noReceivers => ([], st)
    | some (CacheVal.list rs) => (resolveLive alive rs, st)
    | Option.none => liveSlow alive sender st
  else liveSlow alive sender st

/-- Source lines 190-191. -/
def Signal.has_listeners (alive : Nat → Bool) (sender : PyVal) (st : Signal) : Bool :=
  !(Signal.live_receivers alive sender st).1.isEmpty

/-- Source lines 327-335: the finalize callback run when the owner of a
weakly held receiver is destroyed; it only marks the registry as holding
dead references. -/
def remove_receiver (st : Signal) : Signal :=
  { st with dead_receivers := true }

/-- The outcome of invoking one receiver in a fixed send call: a normal
return value, a raised Exception instance, or a raised BaseException
that is not an Exception subclass (such as KeyboardInterrupt).  Return
values and error instances are modelled by numerals. -/
inductive CallResult where
  | ret : Nat → CallResult
  | exc : Nat → CallResult
  | fatal : Nat → CallResult
  deriving DecidableEq

/-- A per-receiver outcome in a send_robust result list: the receiver's
return value, or the captured Exception instance. -/
inductive ROutcome where
  | val : Nat → ROutcome
  | err : Nat → ROutcome
  deriving DecidableEq

/-- What a whole dispatch returns: the ordered result list, or a raised
error that propagated to the caller so that no list was returned. -/
inductive DispatchResult (α : Type) where
  | ok : List (PyVal × α) → DispatchResult α
  | raised : Nat → DispatchResult α
  deriving DecidableEq

/-- Prepend a pair to a dispatch result that is still succeeding. -/
def consOk {α : Type} (x : PyVal × α) : DispatchResult α → DispatchResult α
  | DispatchResult.ok l => DispatchResult.ok (x :: l)
  | DispatchResult.raised e => DispatchResult.raised e

/-- The dispatch loop of send (source lines 217-220): invoke each live
receiver in order and pair it with its return value; any raised error
propagates at once.  The second component records which receivers were
actually invoked. -/
def sendLoop (beh : PyVal → CallResult) : List PyVal → DispatchResult Nat × List PyVal
  | [] => (DispatchResult.ok [], [])
  | r :: rest =>
    match beh r with
    | CallResult.ret v =>
      let p := sendLoop beh rest
      (consOk (r, v) p.1, r :: p.2)
    | CallResult.exc e => (DispatchResult.raised e, [r])
    | CallResult.fatal e => (DispatchResult.raised e, [r])

/-- The dispatch loop of send_robust (source lines 249-260): invoke each
live receiver in order, recording its return value, or the error
instance when it raised an Exception; a raised BaseException that is not
an Exception escapes the except clause and propagates.  The second
component records which receivers were actually invoked. -/
def robustLoop (beh : PyVal → CallResult) :
    List PyVal → DispatchResult ROutcome × List PyVal
  | [] => (DispatchResult.ok [], [])
  | r :: rest =>
    match beh r with
    | CallResult.ret v =>
      let p := robustLoop beh rest
      (consOk (r, ROutcome.val v) p.1, r :: p.2)
    | CallResult.exc e =>
      let p := robustLoop beh rest
      (consOk (r, ROutcome.err e) p.1, r :: p.2)
    | CallResult.fatal e => (DispatchResult.raised e, [r])

/-- Source lines 194-220 (send): return the empty list at once when the
registry is empty or the cache holds the NO_RECEIVERS marker for this
sender; otherwise resolve the live receivers and run the fail-fast
dispatch loop.  beh gives the behaviour of each receiver under the fixed
signal, sender and named arguments of this call; the components are the
returned or raised result, the receivers actually invoked, and the
Signal state after live-receiver resolution. -/
def Signal.send (beh : PyVal → CallResult) (sender : PyVal) (alive : Nat → Bool)
    (st : Signal) : DispatchResult Nat × List PyVal × Signal :=
  if st.receivers.isEmpty = true ∨
      cacheGet st.sender_receivers_cache sender = some CacheVal.noReceivers then
    (DispatchResult.ok [], [], st)
  else
    let p := Signal.live_receivers alive sender st
    let q := sendLoop beh p.1
    (q.1, q.2, p.2)

/-- Source lines 223-260 (send_robust): same fast empty check as send,
then the fault-tolerant dispatch loop. -/
def Signal.send_robust (beh : PyVal → CallResult) (sender : PyVal) (alive : Nat → Bool)
    (st : Signal) : DispatchResult ROutcome × List PyVal × Signal :=
  if st.receivers.isEmpty = true ∨
      cacheGet st.sender_receivers_cache sender = some CacheVal.noReceivers then
    (DispatchResult.ok [], [], st)
  else
    let p := Signal.live_receivers alive sender st
    let q := robustLoop beh p.1
    (q.1, q.2, p.2)

/-- The per-receiver outcome recorded by send_robust, as a function of
the receiver's behaviour; it is only ever consulted for behaviours that
do not raise a bare BaseException. -/
def robustOutcome : CallResult → ROutcome
  | CallResult.ret v => ROutcome.val v
  | CallResult.exc e => ROutcome.err e
  | CallResult.fatal e => ROutcome.err e

/-- The return value of a receiver behaviour; only ever consulted for
behaviours that return normally. -/
def retValue : CallResult → Nat
  | CallResult.ret v => v
  | CallResult.exc e => e
  | CallResult.fatal e => e

/-- The states a Signal can be driven to by its public operations,
together with the liveness map current at that state.  connect requires
the connected receiver's owner to be alive, since the caller holds the
receiver.  The death transition kills any set of objects and runs the
finalize callback, which sets the dead-receivers flag. -/
inductive Reach : (Nat → Bool) → Signal → Prop where
  | init (alive : Nat → Bool) (uc : Bool) : Reach alive (Signal.init uc)
  | connect {alive : Nat → Bool} {st : Signal} (r s : PyVal) (w : Bool)
      (u : Option Nat) (h : alive (ownerAddr r) = true) :
      Reach alive st → Reach alive (Signal.connect r s w u alive st)
  | disconnect {alive : Nat → Bool} {st : Signal} (r s : PyVal) (u : Option Nat) :
      Reach alive st → Reach alive (Signal.disconnect r s u alive st).2
  | live {alive : Nat → Bool} {st : Signal} (s : PyVal) :
      Reach alive st → Reach alive (Signal.live_receivers alive s st).2
  | death {alive : Nat → Bool} {st : Signal} (alive2 : Nat → Bool)
      (h : ∀ x, alive2 x = true → alive x = true) :
      Reach alive st → Reach alive2 (remove_receiver st)

/-- A liveness map on which every object is alive. -/
def aliveAll : Nat → Bool := fun _ => true

/-- A liveness map on which exactly the object at address 5 has been
destroyed. -/
def aliveExcept5 : Nat → Bool := fun x => decide (x ≠ 5)

/-- Three plain receivers at addresses 1, 2 and 3, connected strongly
for any sender, in that order, on a Signal without caching. -/
def sigThree : Signal :=
  Signal.connect (PyVal.obj 3) PyVal.none false Option.none aliveAll
    (Signal.connect (PyVal.obj 2) PyVal.none false Option.none aliveAll
      (Signal.connect (PyVal.obj 1) PyVal.none false Option.none aliveAll
        (Signal.init false)))

/-- A Signal with three receivers connected in order: r1 for the
specific sender S, r2 with sender omitted (any sender), and r3 for the
specific sender T. -/
def scopeSig (uc : Bool) (alive : Nat → Bool) (r1 r2 r3 S T : PyVal)
    (w1 w2 w3 : Bool) (u1 u2 u3 : Option Nat) : Signal :=
  Signal.connect r3 T w3 u3 alive
    (Signal.connect r2 PyVal.none w2 u2 alive
      (Signal.connect r1 S w1 u1 alive (Signal.init uc)))

/-- A receiver behaviour where the receiver at address 2 raises a bare
BaseException and every other receiver returns its own address. -/
def behFatalAt2 : PyVal → CallResult := fun v =>
  if v = PyVal.obj 2 then CallResult.fatal 99 else CallResult.ret (addrOf v)

/-- A receiver behaviour where the receiver at address 2 raises an
Exception and every other receiver returns its own address. -/
def behExcAt2 : PyVal → CallResult := fun v =>
  if v = PyVal.obj 2 then CallResult.exc 42 else CallResult.ret (addrOf v)

/-- A caching Signal holding one weakly connected any-sender receiver at
address 5, after its live receivers for the sender at address 7 have
been resolved (and cached) and the receiver has then been destroyed. -/
def staleCacheMid : Signal :=
  remove_receiver (Signal.live_receivers aliveAll (PyVal.obj 7)
    (Signal.connect (PyVal.obj 5) PyVal.none true Option.none aliveAll
      (Signal.init true))).2

/-- The state staleCacheMid after a live-receiver resolution for the
sender at address 8, whose slow path prunes the dead entry. -/
def staleCacheEnd : Signal :=
  (Signal.live_receivers aliveExcept5 (PyVal.obj 8) staleCacheMid).2

/-! ### Basic lemmas about the registry operations -/

theorem clear_dead_use_caching (alive : Nat → Bool) (st : Signal) :
    (clear_dead_receivers alive st).use_caching = st.use_caching := by
  unfold clear_dead_receivers; split <;> rfl

theorem clear_dead_cache (alive : Nat → Bool) (st : Signal) :
    (clear_dead_receivers alive st).sender_receivers_cache = st.sender_receivers_cache := by
  unfold clear_dead_receivers; split <;> rfl

theorem clear_dead_flag (alive : Nat → Bool) (st : Signal) :
    (clear_dead_receivers alive st).dead_receivers = false := by
  unfold clear_dead_receivers; split
  · rfl
  · next h => simpa using h

theorem clear_dead_receivers_sublist (alive : Nat → Bool) (st : Signal) :
    (clear_dead_receivers alive st).receivers.Sublist st.receivers := by
  unfold clear_dead_receivers; split
  · exact List.filter_sublist _
  · exact List.Sublist.refl _

theorem clear_dead_of_flag_false (alive : Nat → Bool) (st : Signal)
    (h : st.dead_receivers = false) : clear_dead_receivers alive st = st := by
  unfold clear_dead_receivers; simp [h]

theorem scanReceivers_nil (k : PyId) : scanReceivers k [] = [] := rfl

theorem resolveLive_nil (alive : Nat → Bool) : resolveLive alive [] = [] := rfl

theorem scanReceivers_eq_filter_map (k : PyId) (l : List (LookupKey × RefHandle)) :
    scanReceivers k l =
      (l.filter (fun e => decide (e.1.2 = NONE_ID ∨ e.1.2 = k))).map Prod.snd := by
  induction l with
  | nil => rfl
  | cons e t ih =>
    by_cases hm : (e.1.2 = NONE_ID ∨ e.1.2 = k) <;>
      simp [scanReceivers, List.filter_cons, hm, ih]

theorem scanReceivers_sublist_of_sublist (k : PyId)
    {l1 l2 : List (LookupKey × RefHandle)} (h : l1.Sublist l2) :
    (scanReceivers k l1).Sublist (scanReceivers k l2) := by
  rw [scanReceivers_eq_filter_map, scanReceivers_eq_filter_map]
  exact (h.filter _).map _

theorem scanReceivers_filter_keep (k : PyId) (alive : Nat → Bool)
    (l : List (LookupKey × RefHandle)) :
    scanReceivers k (l.filter (fun e => handleKeep alive e.2)) =
      (scanReceivers k l).filter (handleKeep alive) := by
  induction l with
  | nil => rfl
  | cons e t ih =>
    by_cases hk : handleKeep alive e.2 = true <;>
      by_cases hm : (e.1.2 = NONE_ID ∨ e.1.2 = k) <;>
        simp [scanReceivers, List.filter_cons, hk, hm, ih]

theorem mem_scanReceivers {k : PyId} {l : List (LookupKey × RefHandle)}
    {h : RefHandle} (hm : h ∈ scanReceivers k l) : ∃ e ∈ l, e.2 = h := by
  induction l with
  | nil => simp [scanReceivers] at hm
  | cons e t ih =>
    unfold scanReceivers at hm
    split at hm
    · rcases List.mem_cons.mp hm with h1 | h2
      · exact ⟨e, List.mem_cons_self _ _, h1.symm⟩
      · rcases ih h2 with ⟨f, hf, he⟩
        exact ⟨f, List.mem_cons_of_mem _ hf, he⟩
    · rcases ih hm with ⟨f, hf, he⟩
      exact ⟨f, List.mem_cons_of_mem _ hf, he⟩

theorem resolveLive_cons (alive : Nat → Bool) (h : RefHandle) (t : List RefHandle) :
    resolveLive alive (h :: t) =
      match RefHandle.deref alive h with
      | some r => r :: resolveLive alive t
      | Option.none => resolveLive alive t := rfl

theorem resolveLive_filter_keep (alive2 g : Nat → Bool)
    (hsub : ∀ x, alive2 x = true → g x = true) (rs : List RefHandle) :
    resolveLive alive2 (rs.filter (handleKeep g)) = resolveLive alive2 rs := by
  induction rs with
  | nil => rfl
  | cons h t ih =>
    cases hk : handleKeep g h with
    | true =>
      rw [List.filter_cons, if_pos hk, resolveLive_cons, resolveLive_cons, ih]
    | false =>
      have hder : RefHandle.deref alive2 h = Option.none := by
        cases h with
        | strong r => simp [handleKeep] at hk
        | weak r =>
          simp only [handleKeep] at hk
          have ha2 : alive2 (ownerAddr r) = false := by
            cases ha : alive2 (ownerAddr r)
            · rfl
            · rw [hsub _ ha] at hk; exact absurd hk (by simp)
          simp [RefHandle.deref, ha2]
      rw [List.filter_cons, if_neg (by simp [hk]), ih, resolveLive_cons, hder]

theorem resolveLive_keep_eq_self (alive : Nat → Bool) {rs : List RefHandle}
    (hall : ∀ h ∈ rs, handleKeep alive h = true) :
    (rs.filter (handleKeep alive)) = rs :=
  List.filter_eq_self.mpr hall

theorem cacheGet_nil (s : PyVal) : cacheGet [] s = Option.none := rfl

theorem cacheGet_insert (s s2 : PyVal) (v : CacheVal) (c : List (PyVal × CacheVal)) :
    cacheGet (cacheInsert s v c) s2 = if s = s2 then some v else cacheGet c s2 := by
  induction c with
  | nil => simp [cacheInsert, cacheGet]
  | cons e t ih =>
    rcases e with ⟨k, w⟩
    by_cases hk : k = s
    · by_cases h2 : s = s2
      · simp [cacheInsert, cacheGet, hk, h2]
      · have hk2 : ¬ k = s2 := by rw [hk]; exact h2
        simp [cacheInsert, cacheGet, hk, h2, hk2]
    · by_cases hk2 : k = s2
      · have hs2 : ¬ s = s2 := by
          intro h
          exact hk (by rw [hk2, h])
        have hs2s : ¬ s2 = s := fun h => hs2 h.symm
        simp [cacheInsert, cacheGet, hk, hk2, hs2, hs2s]
      · simp [cacheInsert, cacheGet, hk, hk2, ih]

theorem hasKey_iff (k : LookupKey) (l : List (LookupKey × RefHandle)) :
    hasKey k l = true ↔ ∃ e ∈ l, e.1 = k := by
  simp [hasKey, List.any_eq_true]

theorem hasKey_eq_false_iff (k : LookupKey) (l : List (LookupKey × RefHandle)) :
    hasKey k l = false ↔ ∀ e ∈ l, e.1 ≠ k := by
  constructor
  · intro h e he hek
    have ht : hasKey k l = true := (hasKey_iff k l).mpr ⟨e, he, hek⟩
    rw [h] at ht
    exact absurd ht (by simp)
  · intro h
    cases hh : hasKey k l
    · rfl
    · rcases (hasKey_iff k l).mp hh with ⟨e, he, hek⟩
      exact absurd hek (h e he)

theorem countKey_nil (k : LookupKey) : countKey k [] = 0 := rfl

theorem countKey_cons (k : LookupKey) (e : LookupKey × RefHandle)
    (t : List (LookupKey × RefHandle)) :
    countKey k (e :: t) = countKey k t + (if e.1 = k then 1 else 0) := by
  by_cases hek : e.1 = k <;> simp [countKey, List.countP_cons, hek]

theorem countKey_append (k : LookupKey) (l1 l2 : List (LookupKey × RefHandle)) :
    countKey k (l1 ++ l2) = countKey k l1 + countKey k l2 := by
  simp [countKey, List.countP_append]

theorem countKey_eq_zero_of_not_mem {k : LookupKey} {l : List (LookupKey × RefHandle)}
    (h : k ∉ l.map Prod.fst) : countKey k l = 0 := by
  induction l with
  | nil => rfl
  | cons e t ih =>
    simp only [List.map_cons, List.mem_cons, not_or] at h
    have h1 : ¬ e.1 = k := fun hc => h.1 hc.symm
    have h0 : countKey k t = 0 := ih h.2
    rw [countKey_cons, if_neg h1, h0]

theorem countKey_pos_of_hasKey {k : LookupKey} {l : List (LookupKey × RefHandle)}
    (h : hasKey k l = true) : 1 ≤ countKey k l := by
  rcases (hasKey_iff k l).mp h with ⟨e, he, hek⟩
  have hp : 0 < countKey k l := by
    apply List.countP_pos_iff.mpr
    exact ⟨e, he, by simp [hek]⟩
  omega

theorem countKey_le_one_of_nodup {k : LookupKey} {l : List (LookupKey × RefHandle)}
    (h : (l.map Prod.fst).Nodup) : countKey k l ≤ 1 := by
  induction l with
  | nil => simp [countKey]
  | cons e t ih =>
    simp only [List.map_cons, List.nodup_cons] at h
    have ht := ih h.2
    by_cases hek : e.1 = k
    · have h0 : countKey k t = 0 :=
        countKey_eq_zero_of_not_mem (by rw [← hek]; exact h.1)
      rw [countKey_cons, if_pos hek, h0]
    · rw [countKey_cons, if_neg hek]
      omega

theorem removeFirstKey_sublist (k : LookupKey) (l : List (LookupKey × RefHandle)) :
    (removeFirstKey k l).Sublist l := by
  induction l with
  | nil => exact List.Sublist.refl _
  | cons e t ih =>
    unfold removeFirstKey
    split
    · exact List.sublist_cons_self _ _
    · exact ih.cons₂ _

theorem removeFirstKey_of_not_has {k : LookupKey} {l : List (LookupKey × RefHandle)}
    (h : hasKey k l = false) : removeFirstKey k l = l := by
  induction l with
  | nil => rfl
  | cons e t ih =>
    rw [hasKey_eq_false_iff] at h
    have he : ¬ e.1 = k := h e (List.mem_cons_self _ _)
    unfold removeFirstKey
    rw [if_neg he, ih]
    rw [hasKey_eq_false_iff]
    exact fun f hf => h f (List.mem_cons_of_mem _ hf)

theorem removeFirstKey_length_of_has {k : LookupKey} {l : List (LookupKey × RefHandle)}
    (h : hasKey k l = true) : (removeFirstKey k l).length + 1 = l.length := by
  induction l with
  | nil => simp [hasKey] at h
  | cons e t ih =>
    by_cases he : e.1 = k
    · unfold removeFirstKey
      rw [if_pos he]
      simp
    · have ht : hasKey k t = true := by
        rcases (hasKey_iff k (e :: t)).mp h with ⟨f, hf, hfk⟩
        rcases List.mem_cons.mp hf with rfl | hmem
        · exact absurd hfk he
        · exact (hasKey_iff k t).mpr ⟨f, hmem, hfk⟩
      unfold removeFirstKey
      rw [if_neg he]
      have hlen := ih ht
      simp only [List.length_cons]
      omega

theorem hasKey_removeFirstKey_of_nodup {k : LookupKey}
    {l : List (LookupKey × RefHandle)} (h : (l.map Prod.fst).Nodup) :
    hasKey k (removeFirstKey k l) = false := by
  induction l with
  | nil => rfl
  | cons e t ih =>
    simp only [List.map_cons, List.nodup_cons] at h
    by_cases he : e.1 = k
    · unfold removeFirstKey
      rw [if_pos he]
      rw [hasKey_eq_false_iff]
      intro f hf hfk
      exact h.1 (by rw [he, ← hfk]; exact List.mem_map_of_mem Prod.fst hf)
    · unfold removeFirstKey
      rw [if_neg he]
      have := ih h.2
      rw [hasKey_eq_false_iff] at *
      intro f hf
      rcases List.mem_cons.mp hf with rfl | hmem
      · exact he
      · exact this f hmem

/-! ### The reachable-state invariant -/

theorem filter_keep_keep (g a : Nat → Bool) (rs : List RefHandle) :
    (rs.filter (handleKeep g)).filter (handleKeep a) =
      rs.filter (handleKeep (fun x => g x && a x)) := by
  rw [List.filter_filter]
  apply List.filter_congr
  intro h _
  cases h <;> simp [handleKeep, Bool.and_comm]

theorem not_mem_map_fst_of_not_hasKey {k : LookupKey}
    {l : List (LookupKey × RefHandle)} (h : hasKey k l = false) :
    k ∉ l.map Prod.fst := by
  rw [hasKey_eq_false_iff] at h
  intro hm
  rcases List.mem_map.mp hm with ⟨e, he, hek⟩
  exact h e he hek

theorem mkHandle_keep {alive : Nat → Bool} {r : PyVal} (w : Bool)
    (ha : alive (ownerAddr r) = true) : handleKeep alive (mkHandle w r) = true := by
  cases w <;> simp [mkHandle, handleKeep, ha]

theorem scan_nil_of_sublist {k : PyId} {l1 l2 : List (LookupKey × RefHandle)}
    (h : l1.Sublist l2) (hnil : scanReceivers k l2 = []) : scanReceivers k l1 = [] :=
  List.sublist_nil.mp (hnil ▸ scanReceivers_sublist_of_sublist k h)

/-- The invariant maintained by every reachable Signal state: registry
keys are pairwise distinct; when the dead-receivers flag is clear every
registered handle still resolves; a cached NO_RECEIVERS marker only
covers senders whose registry scan is empty; a cached candidate list
differs from the current registry scan only by entries that died after
it was cached; and the cache is empty when caching is disabled. -/
structure SignalInv (alive : Nat → Bool) (st : Signal) : Prop where
  nodup : (st.receivers.map Prod.fst).Nodup
  flag : st.dead_receivers = false → ∀ e ∈ st.receivers, handleKeep alive e.2 = true
  sentinel : ∀ s, cacheGet st.sender_receivers_cache s = some CacheVal.noReceivers →
    scanReceivers (make_id s) st.receivers = []
  cacheList : ∀ s rs, cacheGet st.sender_receivers_cache s = some (CacheVal.list rs) →
    ∃ g : Nat → Bool, (∀ x, alive x = true → g x = true) ∧
      scanReceivers (make_id s) st.receivers = rs.filter (handleKeep g)
  ucEmpty : st.use_caching = false → st.sender_receivers_cache = []

theorem clear_dead_keep {alive : Nat → Bool} {st : Signal} (h : SignalInv alive st) :
    ∀ e ∈ (clear_dead_receivers alive st).receivers, handleKeep alive e.2 = true := by
  intro e he
  cases hd : st.dead_receivers with
  | false =>
    rw [clear_dead_of_flag_false alive st hd] at he
    exact h.flag hd e he
  | true =>
    unfold clear_dead_receivers at he
    rw [hd] at he
    simp only [if_true] at he
    exact (List.mem_filter.mp he).2

theorem inv_clear_dead {alive : Nat → Bool} {st : Signal} (h : SignalInv alive st) :
    SignalInv alive (clear_dead_receivers alive st) := by
  have hsub := clear_dead_receivers_sublist alive st
  constructor
  · exact h.nodup.sublist (hsub.map Prod.fst)
  · intro _
    exact clear_dead_keep h
  · intro s hs
    rw [clear_dead_cache] at hs
    exact scan_nil_of_sublist hsub (h.sentinel s hs)
  · intro s rs hrs
    rw [clear_dead_cache] at hrs
    rcases h.cacheList s rs hrs with ⟨g, hg, hscan⟩
    cases hd : st.dead_receivers with
    | false =>
      refine ⟨g, hg, ?_⟩
      rw [clear_dead_of_flag_false alive st hd]
      exact hscan
    | true =>
      refine ⟨fun x => g x && alive x, fun x hx => by simp [hg x hx, hx], ?_⟩
      unfold clear_dead_receivers
      rw [hd]
      simp only [if_true]
      rw [scanReceivers_filter_keep, hscan, filter_keep_keep]
  · intro huc
    rw [clear_dead_cache]
    rw [clear_dead_use_caching] at huc
    exact h.ucEmpty huc

theorem inv_connect {alive : Nat → Bool} {st : Signal} {r s : PyVal} {w : Bool}
    {u : Option Nat} (ha : alive (ownerAddr r) = true) (h : SignalInv alive st) :
    SignalInv alive (Signal.connect r s w u alive st) := by
  have h1 := inv_clear_dead h
  constructor
  · show ((if hasKey (lookupKey r s u) (clear_dead_receivers alive st).receivers
        then (clear_dead_receivers alive st).receivers
        else (clear_dead_receivers alive st).receivers ++
          [(lookupKey r s u, mkHandle w r)]).map Prod.fst).Nodup
    split
    · exact h1.nodup
    · next hnk =>
      have hnk2 : hasKey (lookupKey r s u) (clear_dead_receivers alive st).receivers = false := by
        cases hv : hasKey (lookupKey r s u) (clear_dead_receivers alive st).receivers
        · rfl
        · exact absurd hv hnk
      rw [List.map_append]
      rw [List.nodup_append]
      refine ⟨h1.nodup, List.nodup_singleton _, ?_⟩
      intro x hx hx2
      simp only [List.map_cons, List.map_nil, List.mem_singleton] at hx2
      subst hx2
      exact not_mem_map_fst_of_not_hasKey hnk2 hx
  · intro _ e he
    show handleKeep alive e.2 = true
    simp only [Signal.connect] at he
    split at he
    · exact clear_dead_keep h e he
    · rcases List.mem_append.mp he with hm | hm
      · exact clear_dead_keep h e hm
      · simp only [List.mem_singleton] at hm
        subst hm
        exact mkHandle_keep w ha
  · intro s2 hs2
    simp [Signal.connect, cacheGet] at hs2
  · intro s2 rs hrs
    simp [Signal.connect, cacheGet] at hrs
  · intro _
    rfl

theorem inv_disconnect {alive : Nat → Bool} {st : Signal} {r s : PyVal}
    {u : Option Nat} (h : SignalInv alive st) :
    SignalInv alive (Signal.disconnect r s u alive st).2 := by
  have h1 := inv_clear_dead h
  have hsub := removeFirstKey_sublist (lookupKey r s u)
    (clear_dead_receivers alive st).receivers
  constructor
  · exact h1.nodup.sublist (hsub.map Prod.fst)
  · intro _ e he
    exact clear_dead_keep h e (hsub.subset he)
  · intro s2 hs2
    simp [Signal.disconnect, cacheGet] at hs2
  · intro s2 rs hrs
    simp [Signal.disconnect, cacheGet] at hrs
  · intro _
    rfl

theorem inv_liveSlow {alive : Nat → Bool} {st : Signal} {s : PyVal} (h : SignalInv alive st) :
    SignalInv alive (liveSlow alive s st).2 := by
  have h1 := inv_clear_dead h
  have hkeepall : ∀ x ∈ scanReceivers (make_id s) (clear_dead_receivers alive st).receivers,
      handleKeep alive x = true := by
    intro x hx
    rcases mem_scanReceivers hx with ⟨e, he, hex⟩
    rw [← hex]
    exact clear_dead_keep h e he
  constructor
  · exact h1.nodup
  · intro _ e he
    exact clear_dead_keep h e he
  · intro s2 hs2
    simp only [liveSlow] at hs2 ⊢
    split at hs2
    · rw [cacheGet_insert] at hs2
      split at hs2
      · next heq =>
        subst heq
        split at hs2
        · next hemp =>
          exact List.isEmpty_iff.mp hemp
        · exact absurd hs2 (by simp)
      · exact h1.sentinel s2 hs2
    · exact h1.sentinel s2 hs2
  · intro s2 rs hrs
    simp only [liveSlow] at hrs ⊢
    split at hrs
    · rw [cacheGet_insert] at hrs
      split at hrs
      · next heq =>
        subst heq
        split at hrs
        · exact absurd hrs (by simp)
        · refine ⟨alive, fun x hx => hx, ?_⟩
          have hrs2 := (CacheVal.list.injEq _ _).mp (Option.some.inj hrs)
          rw [← hrs2]
          exact (List.filter_eq_self.mpr hkeepall).symm
      · exact h1.cacheList s2 rs hrs
    · exact h1.cacheList s2 rs hrs
  · intro huc
    simp only [liveSlow, clear_dead_use_caching] at huc
    have huc1 : (clear_dead_receivers alive st).use_caching = false := by
      rw [clear_dead_use_caching]; exact huc
    simp only [liveSlow]
    rw [if_neg (by simp [huc1])]
    rw [clear_dead_cache]
    exact h.ucEmpty huc

theorem inv_live {alive : Nat → Bool} {st : Signal} {s : PyVal} (h : SignalInv alive st) :
    SignalInv alive (Signal.live_receivers alive s st).2 := by
  unfold Signal.live_receivers
  split
  · cases hc : cacheGet st.sender_receivers_cache s with
    | none => exact inv_liveSlow h
    | some v =>
      cases v with
      | noReceivers => exact h
      | list rs => exact h
  · exact inv_liveSlow h

theorem inv_death {alive alive2 : Nat → Bool} {st : Signal}
    (hsub : ∀ x, alive2 x = true → alive x = true) (h : SignalInv alive st) :
    SignalInv alive2 (remove_receiver st) := by
  constructor
  · exact h.nodup
  · intro hf
    simp [remove_receiver] at hf
  · exact h.sentinel
  · intro s rs hrs
    rcases h.cacheList s rs hrs with ⟨g, hg, hscan⟩
    exact ⟨g, fun x hx => hg x (hsub x hx), hscan⟩
  · exact h.ucEmpty

theorem inv_init (alive : Nat → Bool) (uc : Bool) : SignalInv alive (Signal.init uc) := by
  constructor
  · simp [Signal.init]
  · intro _ e he
    simp [Signal.init] at he
  · intro s hs
    simp [Signal.init, cacheGet] at hs
  · intro s rs hrs
    simp [Signal.init, cacheGet] at hrs
  · intro _
    rfl

/-- Every reachable Signal state satisfies the invariant. -/
theorem reach_inv {alive : Nat → Bool} {st : Signal} (h : Reach alive st) :
    SignalInv alive st := by
  induction h with
  | init alive uc => exact inv_init alive uc
  | connect r s w u ha hr ih => exact inv_connect ha ih
  | disconnect r s u hr ih => exact inv_disconnect ih
  | live s hr ih => exact inv_live ih
  | death alive2 hsub hr ih => exact inv_death hsub ih

/-! ### Derived facts about live-receiver resolution and the dispatch loops -/

theorem liveSlow_fst (alive : Nat → Bool) (s : PyVal) (st : Signal) :
    (liveSlow alive s st).1 =
      resolveLive alive
        (scanReceivers (make_id s) (clear_dead_receivers alive st).receivers) := rfl

theorem live_receivers_cache_none {alive : Nat → Bool} {s : PyVal} {st : Signal}
    (hc : cacheGet st.sender_receivers_cache s = Option.none) :
    Signal.live_receivers alive s st = liveSlow alive s st := by
  unfold Signal.live_receivers
  split
  · rw [hc]
  · rfl

theorem live_fst_empty_of_receivers_nil {alive : Nat → Bool} {s : PyVal} {st : Signal}
    (hinv : SignalInv alive st) (hrec : st.receivers = []) :
    (Signal.live_receivers alive s st).1 = [] := by
  have hnil : (clear_dead_receivers alive st).receivers = [] :=
    List.sublist_nil.mp (hrec ▸ clear_dead_receivers_sublist alive st)
  unfold Signal.live_receivers
  split
  · cases hc : cacheGet st.sender_receivers_cache s with
    | none =>
      show (liveSlow alive s st).1 = []
      rw [liveSlow_fst, hnil]
      rfl
    | some v =>
      cases v with
      | noReceivers => rfl
      | list rs =>
        show resolveLive alive rs = []
        rcases hinv.cacheList s rs hc with ⟨g, hg, hscan⟩
        rw [hrec] at hscan
        have hfe : rs.filter (handleKeep g) = [] := by
          rw [← hscan]
          rfl
        rw [← resolveLive_filter_keep alive g hg rs, hfe]
        rfl
  · show (liveSlow alive s st).1 = []
    rw [liveSlow_fst, hnil]
    rfl

theorem live_fst_empty_of_sentinel {alive : Nat → Bool} {s : PyVal} {st : Signal}
    (hinv : SignalInv alive st)
    (hs : cacheGet st.sender_receivers_cache s = some CacheVal.noReceivers) :
    (Signal.live_receivers alive s st).1 = [] := by
  unfold Signal.live_receivers
  split
  · rw [hs]
  · show (liveSlow alive s st).1 = []
    rw [liveSlow_fst,
      scan_nil_of_sublist (clear_dead_receivers_sublist alive st) (hinv.sentinel s hs)]
    rfl

theorem sendLoop_all_ret {beh : PyVal → CallResult} {L : List PyVal}
    (h : ∀ x ∈ L, ∃ v, beh x = CallResult.ret v) :
    sendLoop beh L =
      (DispatchResult.ok (L.map (fun x => (x, retValue (beh x)))), L) := by
  induction L with
  | nil => rfl
  | cons r t ih =>
    rcases h r (List.mem_cons_self _ _) with ⟨v, hv⟩
    have ht := ih (fun x hx => h x (List.mem_cons_of_mem _ hx))
    unfold sendLoop
    rw [hv, ht]
    simp [consOk, retValue, hv]

theorem sendLoop_raised {beh : PyVal → CallResult} {l1 l2 : List PyVal} {r : PyVal}
    {e : Nat} (h1 : ∀ x ∈ l1, ∃ v, beh x = CallResult.ret v)
    (hr : beh r = CallResult.exc e ∨ beh r = CallResult.fatal e) :
    sendLoop beh (l1 ++ r :: l2) = (DispatchResult.raised e, l1 ++ [r]) := by
  induction l1 with
  | nil =>
    simp only [List.nil_append]
    unfold sendLoop
    rcases hr with hr | hr <;> rw [hr]
  | cons a t ih =>
    rcases h1 a (List.mem_cons_self _ _) with ⟨v, hv⟩
    have ht := ih (fun x hx => h1 x (List.mem_cons_of_mem _ hx))
    simp only [List.cons_append]
    unfold sendLoop
    rw [hv, ht]
    simp [consOk]

theorem robustLoop_no_fatal {beh : PyVal → CallResult} {L : List PyVal}
    (h : ∀ x ∈ L, ∀ e, beh x ≠ CallResult.fatal e) :
    robustLoop beh L =
      (DispatchResult.ok (L.map (fun x => (x, robustOutcome (beh x)))), L) := by
  induction L with
  | nil => rfl
  | cons r t ih =>
    have ht := ih (fun x hx => h x (List.mem_cons_of_mem _ hx))
    unfold robustLoop
    cases hb : beh r with
    | ret v =>
      rw [ht]
      simp [consOk, robustOutcome, hb]
    | exc e =>
      rw [ht]
      simp [consOk, robustOutcome, hb]
    | fatal e => exact absurd hb (h r (List.mem_cons_self _ _) e)

theorem robustLoop_fatal {beh : PyVal → CallResult} {l1 l2 : List PyVal} {r : PyVal}
    {e : Nat} (h1 : ∀ x ∈ l1, ∀ e2, beh x ≠ CallResult.fatal e2)
    (hr : beh r = CallResult.fatal e) :
    robustLoop beh (l1 ++ r :: l2) = (DispatchResult.raised e, l1 ++ [r]) := by
  induction l1 with
  | nil =>
    simp only [List.nil_append]
    unfold robustLoop
    rw [hr]
  | cons a t ih =>
    have ht := ih (fun x hx e2 => h1 x (List.mem_cons_of_mem _ hx) e2)
    simp only [List.cons_append]
    unfold robustLoop
    cases hb : beh a with
    | ret v =>
      rw [ht]
      simp [consOk]
    | exc e2 =>
      rw [ht]
      simp [consOk]
    | fatal e2 => exact absurd hb (h1 a (List.mem_cons_self _ _) e2)

/-! ### Component facts about connect and disconnect -/

theorem connect_cache (r s : PyVal) (w : Bool) (u : Option Nat) (alive : Nat → Bool)
    (st : Signal) : (Signal.connect r s w u alive st).sender_receivers_cache = [] := rfl

theorem connect_flag (r s : PyVal) (w : Bool) (u : Option Nat) (alive : Nat → Bool)
    (st : Signal) : (Signal.connect r s w u alive st).dead_receivers = false :=
  clear_dead_flag alive st

theorem connect_use_caching (r s : PyVal) (w : Bool) (u : Option Nat) (alive : Nat → Bool)
    (st : Signal) : (Signal.connect r s w u alive st).use_caching = st.use_caching :=
  clear_dead_use_caching alive st

theorem connect_receivers (r s : PyVal) (w : Bool) (u : Option Nat) (alive : Nat → Bool)
    (st : Signal) :
    (Signal.connect r s w u alive st).receivers =
      if hasKey (lookupKey r s u) (clear_dead_receivers alive st).receivers
      then (clear_dead_receivers alive st).receivers
      else (clear_dead_receivers alive st).receivers ++ [(lookupKey r s u, mkHandle w r)] := rfl

theorem connect_hasKey (r s : PyVal) (w : Bool) (u : Option Nat) (alive : Nat → Bool)
    (st : Signal) :
    hasKey (lookupKey r s u) (Signal.connect r s w u alive st).receivers = true := by
  rw [connect_receivers]
  split
  · next h => exact h
  · apply (hasKey_iff _ _).mpr
    exact ⟨(lookupKey r s u, mkHandle w r), List.mem_append_right _ (by simp), rfl⟩

theorem connect_noop {alive : Nat → Bool} {st : Signal} {r s : PyVal} {w : Bool}
    {u : Option Nat} (hc : st.sender_receivers_cache = [])
    (hd : st.dead_receivers = false)
    (hk : hasKey (lookupKey r s u) st.receivers = true) :
    Signal.connect r s w u alive st = st := by
  rcases st with ⟨recs, uc, cache, dead⟩
  simp only at hc hd hk
  subst hc
  subst hd
  simp [Signal.connect, clear_dead_receivers, hk]

theorem disconnect_cache (r s : PyVal) (u : Option Nat) (alive : Nat → Bool)
    (st : Signal) :
    (Signal.disconnect r s u alive st).2.sender_receivers_cache = [] := rfl

theorem disconnect_flag (r s : PyVal) (u : Option Nat) (alive : Nat → Bool)
    (st : Signal) :
    (Signal.disconnect r s u alive st).2.dead_receivers = false :=
  clear_dead_flag alive st

theorem disconnect_fst (r s : PyVal) (u : Option Nat) (alive : Nat → Bool) (st : Signal) :
    (Signal.disconnect r s u alive st).1 =
      hasKey (lookupKey r s u) (clear_dead_receivers alive st).receivers := rfl

theorem disconnect_receivers (r s : PyVal) (u : Option Nat) (alive : Nat → Bool)
    (st : Signal) :
    (Signal.disconnect r s u alive st).2.receivers =
      removeFirstKey (lookupKey r s u) (clear_dead_receivers alive st).receivers := rfl

/-! ### Claims -/

theorem reach_sigThree : Reach aliveAll sigThree :=
  Reach.connect _ _ _ _ rfl
    (Reach.connect _ _ _ _ rfl
      (Reach.connect _ _ _ _ rfl (Reach.init aliveAll false)))

/-- Claim C2: in a send call, when every live receiver returns, send
returns the ordered (receiver, result) pairs for all live receivers; and
when the first raising receiver (of either Exception or BaseException
kind) is reached, the error propagates as-is, the receivers after it are
not invoked, and no partial result list is returned. -/
theorem C2_send_fail_fast (alive : Nat → Bool) (st : Signal) (beh : PyVal → CallResult)
    (sender : PyVal) (hreach : Reach alive st) :
    ((∀ x ∈ (Signal.live_receivers alive sender st).1, ∃ v, beh x = CallResult.ret v) →
      (Signal.send beh sender alive st).1 =
        DispatchResult.ok ((Signal.live_receivers alive sender st).1.map
          (fun x => (x, retValue (beh x)))) ∧
      (Signal.send beh sender alive st).2.1 = (Signal.live_receivers alive sender st).1) ∧
    (∀ l1 r l2 e, (Signal.live_receivers alive sender st).1 = l1 ++ r :: l2 →
      (∀ x ∈ l1, ∃ v, beh x = CallResult.ret v) →
      (beh r = CallResult.exc e ∨ beh r = CallResult.fatal e) →
      (Signal.send beh sender alive st).1 = DispatchResult.raised e ∧
      (Signal.send beh sender alive st).2.1 = l1 ++ [r]) := by
  have hinv := reach_inv hreach
  by_cases hfast : st.receivers.isEmpty = true ∨
      cacheGet st.sender_receivers_cache sender = some CacheVal.noReceivers
  · have hL : (Signal.live_receivers alive sender st).1 = [] := by
      rcases hfast with hf | hf
      · exact live_fst_empty_of_receivers_nil hinv (List.isEmpty_iff.mp hf)
      · exact live_fst_empty_of_sentinel hinv hf
    have hsend : Signal.send beh sender alive st = (DispatchResult.ok [], [], st) := by
      unfold Signal.send
      rw [if_pos hfast]
    constructor
    · intro _
      rw [hsend, hL]
      exact ⟨rfl, rfl⟩
    · intro l1 r l2 e hsplit _ _
      rw [hL] at hsplit
      cases l1 <;> simp at hsplit
  · have hsend : Signal.send beh sender alive st =
        ((sendLoop beh (Signal.live_receivers alive sender st).1).1,
         (sendLoop beh (Signal.live_receivers alive sender st).1).2,
         (Signal.live_receivers alive sender st).2) := by
      unfold Signal.send
      rw [if_neg hfast]
    constructor
    · intro hall
      rw [hsend]
      rw [sendLoop_all_ret hall]
      exact ⟨rfl, rfl⟩
    · intro l1 r l2 e hsplit hpre hraise
      rw [hsend, hsplit, sendLoop_raised hpre hraise]
      exact ⟨rfl, rfl⟩

theorem C2_witness :
    (Signal.send behExcAt2 (PyVal.obj 7) aliveAll sigThree).1 =
      DispatchResult.raised 42 ∧
    (Signal.send behExcAt2 (PyVal.obj 7) aliveAll sigThree).2.1 =
      [PyVal.obj 1, PyVal.obj 2] :=
  (C2_send_fail_fast aliveAll sigThree behExcAt2 (PyVal.obj 7) reach_sigThree).2
    [PyVal.obj 1] (PyVal.obj 2) [PyVal.obj 3] 42 (by decide)
    (by
      intro x hx
      simp only [List.mem_singleton] at hx
      subst hx
      exact ⟨1, by decide⟩)
    (by decide)

/-- Claim C1 (counterexample): with three live receivers of which the
second raises a bare BaseException (KeyboardInterrupt-like), send_robust
does not return one outcome per live receiver: the error propagates, the
third receiver is never invoked, and no outcome list is returned. -/
theorem C1_counterexample :
    (Signal.live_receivers aliveAll (PyVal.obj 7) sigThree).1 =
      [PyVal.obj 1, PyVal.obj 2, PyVal.obj 3] ∧
    (Signal.send_robust behFatalAt2 (PyVal.obj 7) aliveAll sigThree).1 =
      DispatchResult.raised 99 ∧
    (Signal.send_robust behFatalAt2 (PyVal.obj 7) aliveAll sigThree).2.1 =
      [PyVal.obj 1, PyVal.obj 2] := by decide

/-- Claim C1 (amended): provided no receiver raises an error outside the
Exception class, send_robust invokes every live receiver exactly once in
registration order and returns one (receiver, outcome) pair per live
receiver in that order, where the outcome is the return value on success
and the captured fault object on an Exception raise. -/
theorem C1_send_robust_all_attempted (alive : Nat → Bool) (st : Signal)
    (beh : PyVal → CallResult) (sender : PyVal) (hreach : Reach alive st)
    (hnofatal : ∀ x ∈ (Signal.live_receivers alive sender st).1,
      ∀ e, beh x ≠ CallResult.fatal e) :
    (Signal.send_robust beh sender alive st).1 =
      DispatchResult.ok ((Signal.live_receivers alive sender st).1.map
        (fun x => (x, robustOutcome (beh x)))) ∧
    (Signal.send_robust beh sender alive st).2.1 =
      (Signal.live_receivers alive sender st).1 := by
  have hinv := reach_inv hreach
  by_cases hfast : st.receivers.isEmpty = true ∨
      cacheGet st.sender_receivers_cache sender = some CacheVal.noReceivers
  · have hL : (Signal.live_receivers alive sender st).1 = [] := by
      rcases hfast with hf | hf
      · exact live_fst_empty_of_receivers_nil hinv (List.isEmpty_iff.mp hf)
      · exact live_fst_empty_of_sentinel hinv hf
    have hsend : Signal.send_robust beh sender alive st = (DispatchResult.ok [], [], st) := by
      unfold Signal.send_robust
      rw [if_pos hfast]
    rw [hsend, hL]
    exact ⟨rfl, rfl⟩
  · have hsend : Signal.send_robust beh sender alive st =
        ((robustLoop beh (Signal.live_receivers alive sender st).1).1,
         (robustLoop beh (Signal.live_receivers alive sender st).1).2,
         (Signal.live_receivers alive sender st).2) := by
      unfold Signal.send_robust
      rw [if_neg hfast]
    rw [hsend, robustLoop_no_fatal hnofatal]
    exact ⟨rfl, rfl⟩

theorem C1_witness :
    (Signal.send_robust behExcAt2 (PyVal.obj 7) aliveAll sigThree).1 =
      DispatchResult.ok [(PyVal.obj 1, ROutcome.val 1), (PyVal.obj 2, ROutcome.err 42),
        (PyVal.obj 3, ROutcome.val 3)] ∧
    (Signal.send_robust behExcAt2 (PyVal.obj 7) aliveAll sigThree).2.1 =
      [PyVal.obj 1, PyVal.obj 2, PyVal.obj 3] := by
  have h := C1_send_robust_all_attempted aliveAll sigThree behExcAt2 (PyVal.obj 7)
    reach_sigThree (by
      intro x hx e
      by_cases hv : x = PyVal.obj 2 <;> simp [behExcAt2, hv])
  rw [h.1, h.2]
  constructor
  · rfl
  · rfl

/-- Claim C10: send_robust captures only Exception-class faults; when a
receiver raises an error that is not an Exception (a bare BaseException),
that error propagates out of send_robust, the receivers after it are not
invoked, and no result list is returned.  The receivers before it were
all attempted, whether they returned or raised Exceptions. -/
theorem C10_bare_base_exception_escapes (alive : Nat → Bool) (st : Signal)
    (beh : PyVal → CallResult) (sender : PyVal) (l1 l2 : List PyVal) (r : PyVal)
    (e : Nat) (hreach : Reach alive st)
    (hsplit : (Signal.live_receivers alive sender st).1 = l1 ++ r :: l2)
    (hpre : ∀ x ∈ l1, ∀ e2, beh x ≠ CallResult.fatal e2)
    (hfatal : beh r = CallResult.fatal e) :
    (Signal.send_robust beh sender alive st).1 = DispatchResult.raised e ∧
    (Signal.send_robust beh sender alive st).2.1 = l1 ++ [r] := by
  have hinv := reach_inv hreach
  by_cases hfast : st.receivers.isEmpty = true ∨
      cacheGet st.sender_receivers_cache sender = some CacheVal.noReceivers
  · have hL : (Signal.live_receivers alive sender st).1 = [] := by
      rcases hfast with hf | hf
      · exact live_fst_empty_of_receivers_nil hinv (List.isEmpty_iff.mp hf)
      · exact live_fst_empty_of_sentinel hinv hf
    rw [hL] at hsplit
    cases l1 <;> simp at hsplit
  · have hsend : Signal.send_robust beh sender alive st =
        ((robustLoop beh (Signal.live_receivers alive sender st).1).1,
         (robustLoop beh (Signal.live_receivers alive sender st).1).2,
         (Signal.live_receivers alive sender st).2) := by
      unfold Signal.send_robust
      rw [if_neg hfast]
    rw [hsend, hsplit, robustLoop_fatal hpre hfatal]
    exact ⟨rfl, rfl⟩

theorem C10_witness :
    (Signal.send_robust behFatalAt2 (PyVal.obj 9) aliveAll sigThree).1 =
      DispatchResult.raised 99 ∧
    (Signal.send_robust behFatalAt2 (PyVal.obj 9) aliveAll sigThree).2.1 =
      [PyVal.obj 1, PyVal.obj 2] :=
  C10_bare_base_exception_escapes aliveAll sigThree behFatalAt2 (PyVal.obj 9)
    [PyVal.obj 1] [PyVal.obj 3] (PyVal.obj 2) 99 reach_sigThree (by decide)
    (by
      intro x hx e2
      by_cases hv : x = PyVal.obj 2 <;> simp [behFatalAt2, hv]
      · intro hq
        rw [hv] at hx
        simp at hx)
    (by decide)

/-- Claim C4 (counterexample): a prune that removes a dead entry during
live-receiver resolution does not discard the sender cache.  Starting
from a caching Signal with one weakly connected receiver, caching its
live list for one sender, destroying the receiver, and resolving live
receivers for a different sender removes the dead entry from the
registry yet leaves the earlier cache entry in place. -/
theorem C4_counterexample :
    staleCacheMid.receivers ≠ [] ∧
    staleCacheEnd.receivers = [] ∧
    cacheGet staleCacheEnd.sender_receivers_cache (PyVal.obj 7) =
      some (CacheVal.list [RefHandle.weak (PyVal.obj 5)]) ∧
    staleCacheEnd.sender_receivers_cache ≠ [] := by decide

/-- Claim C4 (amended): every call to connect and every call to
disconnect leaves the sender cache cleared in its entirety, never
partially updated; a prune performed during live-receiver resolution,
however, does not clear the cache, and entries written before it survive
for other senders (they hold weak references, so later resolution still
drops receivers that have died). -/
theorem C4_connect_disconnect_clear_cache (r s r2 s2 : PyVal) (w : Bool)
    (u u2 : Option Nat) (alive alive2 : Nat → Bool) (st st2 : Signal) :
    (Signal.connect r s w u alive st).sender_receivers_cache = [] ∧
    (Signal.disconnect r2 s2 u2 alive2 st2).2.sender_receivers_cache = [] :=
  ⟨rfl, rfl⟩

/-- Claim C7: with a dispatch uid, the lookup key is (dispatch_uid,
identity of sender) and the receiver's own identity is ignored:
connecting a second (arbitrarily different) receiver with the same
dispatch uid and sender is a no-op that leaves the whole state unchanged,
and from a fresh Signal only the first receiver ends up registered,
under the uid-based key. -/
theorem C7_dispatch_uid_ignores_receiver_identity (st : Signal)
    (alive1 alive2 : Nat → Bool) (r1 r2 s : PyVal) (w1 w2 : Bool) (u : Nat)
    (uc : Bool) :
    Signal.connect r2 s w2 (some u) alive2 (Signal.connect r1 s w1 (some u) alive1 st) =
      Signal.connect r1 s w1 (some u) alive1 st ∧
    (Signal.connect r2 s w2 (some u) alive2
        (Signal.connect r1 s w1 (some u) alive1 (Signal.init uc))).receivers =
      [((KeyHead.uid u, make_id s), mkHandle w1 r1)] := by
  constructor
  · exact connect_noop (connect_cache r1 s w1 (some u) alive1 st)
      (connect_flag r1 s w1 (some u) alive1 st)
      (connect_hasKey r1 s w1 (some u) alive1 st)
  · have h1 : Signal.connect r2 s w2 (some u) alive2
        (Signal.connect r1 s w1 (some u) alive1 (Signal.init uc)) =
        Signal.connect r1 s w1 (some u) alive1 (Signal.init uc) :=
      connect_noop (connect_cache r1 s w1 (some u) alive1 (Signal.init uc))
        (connect_flag r1 s w1 (some u) alive1 (Signal.init uc))
        (connect_hasKey r1 s w1 (some u) alive1 (Signal.init uc))
    rw [h1, connect_receivers, clear_dead_of_flag_false alive1 (Signal.init uc) rfl]
    simp [hasKey, Signal.init, lookupKey]

/-- Claim C8: the identity function is total by construction (it is a
function on all modelled Python values); references to the same callable
give equal keys; two freshly created references to the same bound method
of the same object give equal keys even though the transient method
objects differ; bound methods of objects at different addresses never
give equal keys; and the identity key of the None sentinel differs from
the key of every real object (whose address, by the CPython liveness
guarantee, differs from the address of None) and of every bound method. -/
theorem C8_make_id_contract (own1 own2 o1 o2 slf fnc slf1 fnc1 slf2 fnc2 a : Nat)
    (hslf : slf1 ≠ slf2) (ha : a ≠ NONE_ADDR) :
    make_id (PyVal.obj a) = make_id (PyVal.obj a) ∧
    make_id (PyVal.method own1 slf fnc) = make_id (PyVal.method own2 slf fnc) ∧
    make_id (PyVal.method o1 slf1 fnc1) ≠ make_id (PyVal.method o2 slf2 fnc2) ∧
    make_id (PyVal.obj a) ≠ NONE_ID ∧
    make_id (PyVal.method own1 slf1 fnc1) ≠ NONE_ID := by
  refine ⟨rfl, rfl, ?_, ?_, ?_⟩
  · intro h
    simp only [make_id, PyId.pair.injEq] at h
    exact hslf h.1
  · intro h
    simp only [make_id, NONE_ID, addrOf, PyId.single.injEq] at h
    exact ha h
  · intro h
    simp [make_id, NONE_ID, addrOf] at h

theorem C8_witness :
    make_id (PyVal.obj 11) = make_id (PyVal.obj 11) ∧
    make_id (PyVal.method 1 5 6) = make_id (PyVal.method 2 5 6) ∧
    make_id (PyVal.method 3 7 8) ≠ make_id (PyVal.method 4 9 10) ∧
    make_id (PyVal.obj 11) ≠ NONE_ID ∧
    make_id (PyVal.method 1 7 8) ≠ NONE_ID :=
  C8_make_id_contract 1 2 3 4 5 6 7 8 9 10 11 (by decide) (by decide)

/-! ### Further supporting lemmas for the remaining claims -/

theorem lookupKey_snd (r s : PyVal) (u : Option Nat) : (lookupKey r s u).2 = make_id s := by
  cases u <;> rfl

theorem lookupKey_ne_of_sender_ne {r1 r2 s1 s2 : PyVal} {u1 u2 : Option Nat}
    (h : make_id s1 ≠ make_id s2) : lookupKey r1 s1 u1 ≠ lookupKey r2 s2 u2 := by
  intro he
  exact h (by rw [← lookupKey_snd r1 s1 u1, he, lookupKey_snd])

theorem deref_mkHandle {alive : Nat → Bool} {r : PyVal} (w : Bool)
    (ha : alive (ownerAddr r) = true) :
    RefHandle.deref alive (mkHandle w r) = some r := by
  cases w <;> simp [mkHandle, RefHandle.deref, ha]

theorem hasKey_nil (k : LookupKey) : hasKey k [] = false := rfl

theorem hasKey_cons (k : LookupKey) (e : LookupKey × RefHandle)
    (t : List (LookupKey × RefHandle)) :
    hasKey k (e :: t) = (decide (e.1 = k) || hasKey k t) := by
  simp [hasKey]

theorem sendLoop_trace_single (beh : PyVal → CallResult) (r : PyVal) :
    (sendLoop beh [r]).2 = [r] := by
  unfold sendLoop
  cases hb : beh r <;> rfl

theorem sendLoop_trace_head (beh : PyVal → CallResult) (r : PyVal) (t : List PyVal) :
    (sendLoop beh (r :: t)).2.head? = some r := by
  unfold sendLoop
  cases hb : beh r <;> rfl

theorem mem_resolveLive {alive : Nat → Bool} {rs : List RefHandle} {h : RefHandle}
    {r : PyVal} (hm : h ∈ rs) (hd : RefHandle.deref alive h = some r) :
    r ∈ resolveLive alive rs := by
  induction rs with
  | nil => cases hm
  | cons a t ih =>
    rcases List.mem_cons.mp hm with rfl | hmem
    · rw [resolveLive_cons, hd]
      exact List.mem_cons_self _ _
    · rw [resolveLive_cons]
      cases RefHandle.deref alive a with
      | some x => exact List.mem_cons_of_mem _ (ih hmem)
      | none => exact ih hmem

theorem mem_scan_of_noneid {k : PyId} {l : List (LookupKey × RefHandle)}
    {e : LookupKey × RefHandle} (he : e ∈ l) (hid : e.1.2 = NONE_ID) :
    e.2 ∈ scanReceivers k l := by
  induction l with
  | nil => cases he
  | cons a t ih =>
    rcases List.mem_cons.mp he with rfl | hm
    · unfold scanReceivers
      rw [if_pos (Or.inl hid)]
      exact List.mem_cons_self _ _
    · unfold scanReceivers
      split
      · exact List.mem_cons_of_mem _ (ih hm)
      · exact ih hm

theorem liveSlow_snd_use_caching (alive : Nat → Bool) (s : PyVal) (st : Signal) :
    (liveSlow alive s st).2.use_caching = st.use_caching :=
  clear_dead_use_caching alive st

theorem liveSlow_snd_flag (alive : Nat → Bool) (s : PyVal) (st : Signal) :
    (liveSlow alive s st).2.dead_receivers = false :=
  clear_dead_flag alive st

theorem liveSlow_snd_cache (alive : Nat → Bool) (s : PyVal) (st : Signal)
    (huc : st.use_caching = true) :
    (liveSlow alive s st).2.sender_receivers_cache =
      cacheInsert s
        (if (scanReceivers (make_id s) (clear_dead_receivers alive st).receivers).isEmpty
         then CacheVal.noReceivers
         else CacheVal.list
           (scanReceivers (make_id s) (clear_dead_receivers alive st).receivers))
        st.sender_receivers_cache := by
  simp only [liveSlow]
  rw [if_pos (by rw [clear_dead_use_caching]; exact huc), clear_dead_cache]

theorem liveSlow_then_live (alive : Nat → Bool) (s : PyVal) (st : Signal)
    (huc : st.use_caching = true) :
    (Signal.live_receivers alive s (liveSlow alive s st).2).1 = (liveSlow alive s st).1 := by
  have huc2 : (liveSlow alive s st).2.use_caching = true := by
    rw [liveSlow_snd_use_caching]
    exact huc
  unfold Signal.live_receivers
  rw [if_pos ⟨huc2, liveSlow_snd_flag alive s st⟩]
  rw [liveSlow_snd_cache alive s st huc, cacheGet_insert, if_pos rfl]
  by_cases hemp : (scanReceivers (make_id s)
      (clear_dead_receivers alive st).receivers).isEmpty = true
  · rw [if_pos hemp]
    rw [liveSlow_fst, List.isEmpty_iff.mp hemp]
    rfl
  · rw [if_neg hemp]
    rw [liveSlow_fst]

/-- Claim C3: connect is idempotent under equal lookup keys.  At every
reachable state, after a connect the registry holds pairwise distinct
lookup keys and exactly one entry for the connected key; a repeated
connect with the same receiver, sender and dispatch uid (with any weak
flag) is a silent no-op that leaves the whole state unchanged; and
connecting the same receiver and sender twice on a fresh Signal leaves
one entry that a send then invokes exactly once. -/
theorem C3_connect_idempotent (alive : Nat → Bool) (st : Signal) (r s : PyVal)
    (w w2 : Bool) (u : Option Nat) (uc : Bool) (beh : PyVal → CallResult)
    (hreach : Reach alive st) (ha : alive (ownerAddr r) = true) :
    ((Signal.connect r s w u alive st).receivers.map Prod.fst).Nodup ∧
    Signal.connect r s w2 u alive (Signal.connect r s w u alive st) =
      Signal.connect r s w u alive st ∧
    countKey (lookupKey r s u) (Signal.connect r s w u alive st).receivers = 1 ∧
    (Signal.send beh s alive
        (Signal.connect r s w u alive
          (Signal.connect r s w u alive (Signal.init uc)))).2.1 = [r] := by
  have hinv := @inv_connect alive st r s w u ha (reach_inv hreach)
  refine ⟨hinv.nodup, ?_, ?_, ?_⟩
  · exact connect_noop (connect_cache r s w u alive st)
      (connect_flag r s w u alive st) (connect_hasKey r s w u alive st)
  · have hle := @countKey_le_one_of_nodup (lookupKey r s u) _ hinv.nodup
    have hge := countKey_pos_of_hasKey (connect_hasKey r s w u alive st)
    omega
  · have hid : Signal.connect r s w u alive
        (Signal.connect r s w u alive (Signal.init uc)) =
        Signal.connect r s w u alive (Signal.init uc) :=
      connect_noop (connect_cache r s w u alive (Signal.init uc))
        (connect_flag r s w u alive (Signal.init uc))
        (connect_hasKey r s w u alive (Signal.init uc))
    rw [hid]
    have hrecs : (Signal.connect r s w u alive (Signal.init uc)).receivers =
        [(lookupKey r s u, mkHandle w r)] := by
      rw [connect_receivers, clear_dead_of_flag_false alive (Signal.init uc) rfl]
      simp [hasKey, Signal.init]
    have hcachenone : cacheGet
        (Signal.connect r s w u alive (Signal.init uc)).sender_receivers_cache s =
        Option.none := by
      rw [connect_cache]
      rfl
    have hlive : (Signal.live_receivers alive s
        (Signal.connect r s w u alive (Signal.init uc))).1 = [r] := by
      rw [live_receivers_cache_none hcachenone, liveSlow_fst,
        clear_dead_of_flag_false alive _ (connect_flag r s w u alive (Signal.init uc)),
        hrecs]
      unfold scanReceivers
      rw [if_pos (Or.inr (lookupKey_snd r s u))]
      rw [resolveLive_cons, deref_mkHandle w ha]
      rfl
    have hfast : ¬((Signal.connect r s w u alive (Signal.init uc)).receivers.isEmpty = true ∨
        cacheGet (Signal.connect r s w u alive
          (Signal.init uc)).sender_receivers_cache s = some CacheVal.noReceivers) := by
      rw [hrecs, hcachenone]
      simp
    unfold Signal.send
    rw [if_neg hfast]
    show (sendLoop beh (Signal.live_receivers alive s
      (Signal.connect r s w u alive (Signal.init uc))).1).2 = [r]
    rw [hlive]
    exact sendLoop_trace_single beh r

theorem C3_witness :
    ((Signal.connect (PyVal.obj 1) (PyVal.obj 2) true Option.none aliveAll
        (Signal.init true)).receivers.map Prod.fst).Nodup ∧
    Signal.connect (PyVal.obj 1) (PyVal.obj 2) false Option.none aliveAll
        (Signal.connect (PyVal.obj 1) (PyVal.obj 2) true Option.none aliveAll
          (Signal.init true)) =
      Signal.connect (PyVal.obj 1) (PyVal.obj 2) true Option.none aliveAll
        (Signal.init true) ∧
    countKey (lookupKey (PyVal.obj 1) (PyVal.obj 2) Option.none)
      (Signal.connect (PyVal.obj 1) (PyVal.obj 2) true Option.none aliveAll
        (Signal.init true)).receivers = 1 ∧
    (Signal.send behExcAt2 (PyVal.obj 2) aliveAll
        (Signal.connect (PyVal.obj 1) (PyVal.obj 2) true Option.none aliveAll
          (Signal.connect (PyVal.obj 1) (PyVal.obj 2) true Option.none aliveAll
            (Signal.init false)))).2.1 = [PyVal.obj 1] :=
  C3_connect_idempotent aliveAll (Signal.init true) (PyVal.obj 1) (PyVal.obj 2)
    true false Option.none false behExcAt2 (Reach.init aliveAll true) rfl

/-- Claim C6: disconnect returns true exactly when an entry carrying the
lookup key computed from its arguments is present after pruning; when it
returns true it removes exactly one entry, and when it returns false it
removes none and does not raise; and a second disconnect with the same
arguments always returns false. -/
theorem C6_disconnect_contract (alive alive2 : Nat → Bool) (st : Signal) (r s : PyVal)
    (u : Option Nat) (hreach : Reach alive st) :
    ((Signal.disconnect r s u alive st).1 = true ↔
      hasKey (lookupKey r s u) (clear_dead_receivers alive st).receivers = true) ∧
    ((Signal.disconnect r s u alive st).1 = true →
      (Signal.disconnect r s u alive st).2.receivers.length + 1 =
        (clear_dead_receivers alive st).receivers.length) ∧
    ((Signal.disconnect r s u alive st).1 = false →
      (Signal.disconnect r s u alive st).2.receivers =
        (clear_dead_receivers alive st).receivers) ∧
    (Signal.disconnect r s u alive2 (Signal.disconnect r s u alive st).2).1 = false := by
  have hinv := inv_clear_dead (reach_inv hreach)
  refine ⟨?_, ?_, ?_, ?_⟩
  · rw [disconnect_fst]
  · intro h
    rw [disconnect_fst] at h
    rw [disconnect_receivers]
    exact removeFirstKey_length_of_has h
  · intro h
    rw [disconnect_fst] at h
    rw [disconnect_receivers, removeFirstKey_of_not_has h]
  · rw [disconnect_fst,
      clear_dead_of_flag_false alive2 _ (disconnect_flag r s u alive st),
      disconnect_receivers]
    exact hasKey_removeFirstKey_of_nodup hinv.nodup

theorem C6_witness :
    (Signal.disconnect (PyVal.obj 2) PyVal.none Option.none aliveAll sigThree).1 = true ∧
    (Signal.disconnect (PyVal.obj 2) PyVal.none Option.none aliveAll
      (Signal.disconnect (PyVal.obj 2) PyVal.none Option.none aliveAll
        sigThree).2).1 = false := by
  have h := C6_disconnect_contract aliveAll aliveAll sigThree (PyVal.obj 2) PyVal.none
    Option.none reach_sigThree
  exact ⟨h.1.mpr (by decide), h.2.2.2⟩

/-- Claim C9: with caching enabled, a second live-receiver resolution
for the same sender with no intervening mutation or receiver death
returns a list equal to the first call's result; any connect or
disconnect clears the cached results for all senders; and on a state
whose cache is empty the next resolution recomputes from the registry
(prune followed by a full scan and dereference). -/
theorem C9_cache_fast_path_equivalent (alive alive2 alive3 : Nat → Bool)
    (st st2 : Signal) (s s2 s3 r : PyVal) (w : Bool) (u : Option Nat)
    (huc : st.use_caching = true) (hc2 : st2.sender_receivers_cache = []) :
    (Signal.live_receivers alive s (Signal.live_receivers alive s st).2).1 =
      (Signal.live_receivers alive s st).1 ∧
    (Signal.connect r s2 w u alive2
      (Signal.live_receivers alive s st).2).sender_receivers_cache = [] ∧
    (Signal.disconnect r s2 u alive2
      (Signal.live_receivers alive s st).2).2.sender_receivers_cache = [] ∧
    (Signal.live_receivers alive3 s3 st2).1 =
      resolveLive alive3
        (scanReceivers (make_id s3) (clear_dead_receivers alive3 st2).receivers) := by
  refine ⟨?_, rfl, rfl, ?_⟩
  · by_cases hguard : st.use_caching = true ∧ st.dead_receivers = false
    · cases hc : cacheGet st.sender_receivers_cache s with
      | none =>
        rw [live_receivers_cache_none hc]
        exact liveSlow_then_live alive s st huc
      | some v =>
        cases v with
        | noReceivers =>
          have h1 : Signal.live_receivers alive s st = ([], st) := by
            unfold Signal.live_receivers
            rw [if_pos hguard, hc]
          rw [h1]
          show (Signal.live_receivers alive s st).1 = []
          rw [h1]
        | list rs =>
          have h1 : Signal.live_receivers alive s st = (resolveLive alive rs, st) := by
            unfold Signal.live_receivers
            rw [if_pos hguard, hc]
          rw [h1]
          show (Signal.live_receivers alive s st).1 = resolveLive alive rs
          rw [h1]
    · have h1 : Signal.live_receivers alive s st = liveSlow alive s st := by
        unfold Signal.live_receivers
        rw [if_neg hguard]
      rw [h1]
      exact liveSlow_then_live alive s st huc
  · rw [live_receivers_cache_none (by rw [hc2]; rfl), liveSlow_fst]

theorem C9_witness :
    (Signal.live_receivers aliveAll (PyVal.obj 4)
      (Signal.live_receivers aliveAll (PyVal.obj 4)
        (Signal.connect (PyVal.obj 1) PyVal.none false Option.none aliveAll
          (Signal.init true))).2).1 =
      (Signal.live_receivers aliveAll (PyVal.obj 4)
        (Signal.connect (PyVal.obj 1) PyVal.none false Option.none aliveAll
          (Signal.init true))).1 ∧
    (Signal.connect (PyVal.obj 2) PyVal.none true Option.none aliveAll
      (Signal.live_receivers aliveAll (PyVal.obj 4)
        (Signal.connect (PyVal.obj 1) PyVal.none false Option.none aliveAll
          (Signal.init true))).2).sender_receivers_cache = [] ∧
    (Signal.disconnect (PyVal.obj 2) PyVal.none Option.none aliveAll
      (Signal.live_receivers aliveAll (PyVal.obj 4)
        (Signal.connect (PyVal.obj 1) PyVal.none false Option.none aliveAll
          (Signal.init true))).2).2.sender_receivers_cache = [] ∧
    (Signal.live_receivers aliveAll (PyVal.obj 4) sigThree).1 =
      resolveLive aliveAll
        (scanReceivers (make_id (PyVal.obj 4))
          (clear_dead_receivers aliveAll sigThree).receivers) :=
  C9_cache_fast_path_equivalent aliveAll aliveAll aliveAll
    (Signal.connect (PyVal.obj 1) PyVal.none false Option.none aliveAll
      (Signal.init true))
    sigThree (PyVal.obj 4) PyVal.none (PyVal.obj 4) (PyVal.obj 2) true Option.none
    (by decide) (by decide)

/-- Claim C5: sender scoping.  With r1 connected for the specific sender
S, r2 connected with sender omitted, and r3 connected for the specific
sender T (S, T real senders with distinct identities), resolving live
receivers for S yields exactly r1 then r2 in registration order,
resolving for T yields r2 then r3, the any-sender receiver r2 is live
for every sender U, r1 is not in the live list of the other sender T,
and a send to S invokes r1 first. -/
theorem C5_sender_scoping (uc : Bool) (alive : Nat → Bool) (r1 r2 r3 S T U : PyVal)
    (w1 w2 w3 : Bool) (u1 u2 u3 : Option Nat) (beh : PyVal → CallResult)
    (hST : make_id S ≠ make_id T) (hS : make_id S ≠ NONE_ID)
    (hT : make_id T ≠ NONE_ID) (ha1 : alive (ownerAddr r1) = true)
    (ha2 : alive (ownerAddr r2) = true) (ha3 : alive (ownerAddr r3) = true)
    (h12 : r1 ≠ r2) (h13 : r1 ≠ r3) :
    (Signal.live_receivers alive S
      (scopeSig uc alive r1 r2 r3 S T w1 w2 w3 u1 u2 u3)).1 = [r1, r2] ∧
    (Signal.live_receivers alive T
      (scopeSig uc alive r1 r2 r3 S T w1 w2 w3 u1 u2 u3)).1 = [r2, r3] ∧
    r2 ∈ (Signal.live_receivers alive U
      (scopeSig uc alive r1 r2 r3 S T w1 w2 w3 u1 u2 u3)).1 ∧
    r1 ∉ (Signal.live_receivers alive T
      (scopeSig uc alive r1 r2 r3 S T w1 w2 w3 u1 u2 u3)).1 ∧
    (Signal.send beh S alive
      (scopeSig uc alive r1 r2 r3 S T w1 w2 w3 u1 u2 u3)).2.1.head? = some r1 := by
  have hflag : (scopeSig uc alive r1 r2 r3 S T w1 w2 w3 u1 u2 u3).dead_receivers = false :=
    connect_flag r3 T w3 u3 alive
      (Signal.connect r2 PyVal.none w2 u2 alive
        (Signal.connect r1 S w1 u1 alive (Signal.init uc)))
  have hrecs : (scopeSig uc alive r1 r2 r3 S T w1 w2 w3 u1 u2 u3).receivers =
      [(lookupKey r1 S u1, mkHandle w1 r1), (lookupKey r2 PyVal.none u2, mkHandle w2 r2),
       (lookupKey r3 T u3, mkHandle w3 r3)] := by
    have h1recs : (Signal.connect r1 S w1 u1 alive (Signal.init uc)).receivers =
        [(lookupKey r1 S u1, mkHandle w1 r1)] := by
      rw [connect_receivers, clear_dead_of_flag_false alive (Signal.init uc) rfl]
      simp [hasKey, Signal.init]
    have hne12 : lookupKey r1 S u1 ≠ lookupKey r2 PyVal.none u2 :=
      lookupKey_ne_of_sender_ne hS
    have h2recs : (Signal.connect r2 PyVal.none w2 u2 alive
        (Signal.connect r1 S w1 u1 alive (Signal.init uc))).receivers =
        [(lookupKey r1 S u1, mkHandle w1 r1),
         (lookupKey r2 PyVal.none u2, mkHandle w2 r2)] := by
      rw [connect_receivers,
        clear_dead_of_flag_false alive _ (connect_flag r1 S w1 u1 alive (Signal.init uc)),
        h1recs]
      rw [if_neg (by simp [hasKey_cons, hasKey_nil, hne12])]
      simp
    have hne13 : lookupKey r1 S u1 ≠ lookupKey r3 T u3 :=
      lookupKey_ne_of_sender_ne hST
    have hne23 : lookupKey r2 PyVal.none u2 ≠ lookupKey r3 T u3 :=
      lookupKey_ne_of_sender_ne (fun h => hT h.symm)
    show (Signal.connect r3 T w3 u3 alive
      (Signal.connect r2 PyVal.none w2 u2 alive
        (Signal.connect r1 S w1 u1 alive (Signal.init uc)))).receivers = _
    rw [connect_receivers,
      clear_dead_of_flag_false alive _
        (connect_flag r2 PyVal.none w2 u2 alive
          (Signal.connect r1 S w1 u1 alive (Signal.init uc))),
      h2recs]
    rw [if_neg (by simp [hasKey_cons, hasKey_nil, hne13, hne23])]
    simp
  have hcache : (scopeSig uc alive r1 r2 r3 S T w1 w2 w3 u1 u2 u3).sender_receivers_cache
      = [] := rfl
  have hliveS : (Signal.live_receivers alive S
      (scopeSig uc alive r1 r2 r3 S T w1 w2 w3 u1 u2 u3)).1 = [r1, r2] := by
    rw [live_receivers_cache_none (by rw [hcache]; rfl), liveSlow_fst,
      clear_dead_of_flag_false alive _ hflag, hrecs]
    have c1 : (lookupKey r1 S u1).2 = NONE_ID ∨ (lookupKey r1 S u1).2 = make_id S :=
      Or.inr (lookupKey_snd r1 S u1)
    have c2 : (lookupKey r2 PyVal.none u2).2 = NONE_ID ∨
        (lookupKey r2 PyVal.none u2).2 = make_id S :=
      Or.inl (lookupKey_snd r2 PyVal.none u2)
    have c3 : ¬((lookupKey r3 T u3).2 = NONE_ID ∨ (lookupKey r3 T u3).2 = make_id S) := by
      rw [lookupKey_snd]
      rintro (h | h)
      · exact hT h
      · exact hST h.symm
    simp only [scanReceivers]
    rw [if_pos c1, if_pos c2, if_neg c3]
    rw [resolveLive_cons, deref_mkHandle w1 ha1, resolveLive_cons, deref_mkHandle w2 ha2]
    rfl
  have hliveT : (Signal.live_receivers alive T
      (scopeSig uc alive r1 r2 r3 S T w1 w2 w3 u1 u2 u3)).1 = [r2, r3] := by
    rw [live_receivers_cache_none (by rw [hcache]; rfl), liveSlow_fst,
      clear_dead_of_flag_false alive _ hflag, hrecs]
    have c1 : ¬((lookupKey r1 S u1).2 = NONE_ID ∨ (lookupKey r1 S u1).2 = make_id T) := by
      rw [lookupKey_snd]
      rintro (h | h)
      · exact hS h
      · exact hST h
    have c2 : (lookupKey r2 PyVal.none u2).2 = NONE_ID ∨
        (lookupKey r2 PyVal.none u2).2 = make_id T :=
      Or.inl (lookupKey_snd r2 PyVal.none u2)
    have c3 : (lookupKey r3 T u3).2 = NONE_ID ∨ (lookupKey r3 T u3).2 = make_id T :=
      Or.inr (lookupKey_snd r3 T u3)
    simp only [scanReceivers]
    rw [if_neg c1, if_pos c2, if_pos c3]
    rw [resolveLive_cons, deref_mkHandle w2 ha2, resolveLive_cons, deref_mkHandle w3 ha3]
    rfl
  refine ⟨hliveS, hliveT, ?_, ?_, ?_⟩
  · rw [live_receivers_cache_none (by rw [hcache]; rfl), liveSlow_fst,
      clear_dead_of_flag_false alive _ hflag, hrecs]
    exact mem_resolveLive
      (@mem_scan_of_noneid (make_id U) _
        (lookupKey r2 PyVal.none u2, mkHandle w2 r2) (by simp)
        (lookupKey_snd r2 PyVal.none u2))
      (deref_mkHandle w2 ha2)
  · rw [hliveT]
    simp [h12, h13]
  · have hfast : ¬((scopeSig uc alive r1 r2 r3 S T w1 w2 w3 u1 u2 u3).receivers.isEmpty
        = true ∨
        cacheGet (scopeSig uc alive r1 r2 r3 S T w1 w2 w3 u1 u2
          u3).sender_receivers_cache S = some CacheVal.noReceivers) := by
      rw [hrecs, hcache]
      simp [cacheGet]
    unfold Signal.send
    rw [if_neg hfast]
    show (sendLoop beh (Signal.live_receivers alive S
      (scopeSig uc alive r1 r2 r3 S T w1 w2 w3 u1 u2 u3)).1).2.head? = some r1
    rw [hliveS]
    exact sendLoop_trace_head beh r1 [r2]

theorem C5_witness :
    (Signal.live_receivers aliveAll (PyVal.obj 10)
      (scopeSig false aliveAll (PyVal.obj 1) (PyVal.obj 2) (PyVal.obj 3)
        (PyVal.obj 10) (PyVal.obj 11) true false true Option.none (some 5)
        Option.none)).1 = [PyVal.obj 1, PyVal.obj 2] ∧
    (Signal.live_receivers aliveAll (PyVal.obj 11)
      (scopeSig false aliveAll (PyVal.obj 1) (PyVal.obj 2) (PyVal.obj 3)
        (PyVal.obj 10) (PyVal.obj 11) true false true Option.none (some 5)
        Option.none)).1 = [PyVal.obj 2, PyVal.obj 3] ∧
    PyVal.obj 2 ∈ (Signal.live_receivers aliveAll (PyVal.obj 12)
      (scopeSig false aliveAll (PyVal.obj 1) (PyVal.obj 2) (PyVal.obj 3)
        (PyVal.obj 10) (PyVal.obj 11) true false true Option.none (some 5)
        Option.none)).1 ∧
    PyVal.obj 1 ∉ (Signal.live_receivers aliveAll (PyVal.obj 11)
      (scopeSig false aliveAll (PyVal.obj 1) (PyVal.obj 2) (PyVal.obj 3)
        (PyVal.obj 10) (PyVal.obj 11) true false true Option.none (some 5)
        Option.none)).1 ∧
    (Signal.send behExcAt2 (PyVal.obj 10) aliveAll
      (scopeSig false aliveAll (PyVal.obj 1) (PyVal.obj 2) (PyVal.obj 3)
        (PyVal.obj 10) (PyVal.obj 11) true false true Option.none (some 5)
        Option.none)).2.1.head? = some (PyVal.obj 1) :=
  C5_sender_scoping false aliveAll (PyVal.obj 1) (PyVal.obj 2) (PyVal.obj 3)
    (PyVal.obj 10) (PyVal.obj 11) (PyVal.obj 12) true false true Option.none
    (some 5) Option.none behExcAt2 (by decide) (by decide) (by decide) rfl rfl rfl
    (by decide) (by decide)
